import Mathlib

/-!
# Asset-tracker ledger & query engine: verification development

Shallow embedding of the asset-tracker application's ledger core:

* the amount parsers (`parseDecimal` from `src/lib/number.ts` and the
  `parseAmountString` duplicate from `TransactionAddRow`),
* the transaction write protocol issued by the `TransactionAddRow` form
  (simple movements, reimbursement mirrors, transfer pairs),
* the data model from the SQLite schema (accounts / categories /
  transactions) and the `types.ts` interfaces,
* the search / pagination / aggregation contract.

The Tauri backend commands (`add_transaction`, `search_transactions`,
`delete_account`, ...) are not part of the frontend sources; where a claim
depends on them they are modelled from the specification, and each such
definition says so in its doc comment.

Amounts are modelled as rationals (the source stores SQLite `REAL` values
and the specification speaks of exact numbers); machine ids are `Nat`.
-/

namespace AssetTracker

/-! ## Characters, whitespace, digits -/

/-- Whitespace as stripped by the parsers (`trim` + `replace(/\s/g,'')` in
the source strips all whitespace; we model the common whitespace chars). -/
def isWs (c : Char) : Bool :=
  c = ' ' || c = '\t' || c = '\n' || c = '\r'

/-- ASCII digit test, the JS `\d` class. -/
def isDigitChar (c : Char) : Bool :=
  '0' ≤ c && c ≤ '9'

/-- Numeric value of a digit character. -/
def digitVal (c : Char) : Nat := c.toNat - 48

/-- Value of a digit string read as a natural number (JS decimal-literal
integer part). -/
def digitsVal (l : List Char) : Nat :=
  l.foldl (fun a c => 10 * a + digitVal c) 0

/-- An exact decimal number `num / 10 ^ scale`: the value a JS numeric
conversion denotes on decimal-literal input, kept unreduced so that it is
computable by kernel reduction. -/
structure DecNum where
  num : Int
  scale : Nat
deriving DecidableEq, Repr

/-- The rational value of an exact decimal. -/
def DecNum.toRat (d : DecNum) : ℚ := (d.num : ℚ) / (10 : ℚ) ^ d.scale

/-- Drop leading whitespace. -/
def dropLeadWs (l : List Char) : List Char := l.dropWhile isWs

/-- JS `String.prototype.trim`. -/
def trimChars (l : List Char) : List Char :=
  ((dropLeadWs l).reverse.dropWhile isWs).reverse

/-- `trim` on `String` values. -/
def trimStr (s : String) : String := ⟨trimChars s.data⟩

/-- Remove every whitespace character (JS `replace(/\s/g, '')`). -/
def stripWs (l : List Char) : List Char := l.filter (fun c => !isWs c)

/-- JS `String.prototype.lastIndexOf`, −1 when absent. -/
def lastIdxAux (c : Char) : List Char → Nat → Int → Int
  | [], _, acc => acc
  | x :: xs, i, acc => lastIdxAux c xs (i + 1) (if x = c then (i : Int) else acc)

/-- Index of the last occurrence of `c`, −1 when absent. -/
def lastIdx (l : List Char) (c : Char) : Int := lastIdxAux c l 0 (-1)

/-- JS `String.prototype.replace(pat, rep)` with a plain one-character
pattern: replaces only the first occurrence. -/
def replaceFirst : List Char → Char → Char → List Char
  | [], _, _ => []
  | x :: xs, a, b => if x = a then b :: xs else x :: replaceFirst xs a b

/-! ## JS numeric conversions (`Number`, `parseFloat`) on the decimal
subset the parsers can feed them. -/

/-- Strip one leading sign, returning whether it was a minus. -/
def splitSign : List Char → Bool × List Char
  | [] => (false, [])
  | c :: cs =>
    if c = '-' then (true, cs)
    else if c = '+' then (false, cs)
    else (false, c :: cs)

/-- Apply a minus sign. -/
def applySign (neg : Bool) (n : Nat) : Int :=
  if neg then -(n : Int) else (n : Int)

/-- Semantics of an unsigned JS decimal literal without exponent:
`digits`, `digits.digits?` or `.digits`, as (numerator, scale).
`none` stands for `NaN`. -/
def decLitVal (l : List Char) : Option (Nat × Nat) :=
  match l.splitOn '.' with
  | [ds] => if ds ≠ [] && ds.all isDigitChar then some (digitsVal ds, 0) else none
  | [ds, fs] =>
    if (ds ≠ [] || fs ≠ []) && ds.all isDigitChar && fs.all isDigitChar then
      some (digitsVal (ds ++ fs), fs.length)
    else none
  | _ => none

/-- JS `Number(t)` on the exponent-free decimal subset (the only strings the
embedded parsers can produce from their inputs of interest); strings outside
that subset convert to `NaN`, modelled as `none`.  `Number('') = 0`. -/
def jsNumber (l : List Char) : Option DecNum :=
  if l = [] then some ⟨0, 0⟩
  else
    let (neg, m) := splitSign l
    match decLitVal m with
    | some (n, k) => some ⟨applySign neg n, k⟩
    | none => none

/-- Longest prefix of `l` that is a run of digits, with the rest. -/
def takeDigits : List Char → List Char × List Char
  | [] => ([], [])
  | c :: cs =>
    if isDigitChar c then
      let (ds, rest) := takeDigits cs
      (c :: ds, rest)
    else ([], c :: cs)

/-- JS `parseFloat(t)` on the exponent-free decimal subset: parses the
longest valid numeric prefix, `NaN` (`none`) when there is none. -/
def jsParseFloat (l : List Char) : Option DecNum :=
  let (neg, m) := splitSign l
  let (ds, rest) := takeDigits m
  match rest with
  | '.' :: tl =>
    let (fs, _) := takeDigits tl
    if ds = [] && fs = [] then none
    else some ⟨applySign neg (digitsVal (ds ++ fs)), fs.length⟩
  | _ => if ds = [] then none else some ⟨applySign neg (digitsVal ds), 0⟩

/-! ## The two amount parsers -/

/-- Shared normalization step of both parsers: when both separators occur,
whichever occurs last is the decimal separator and the other is stripped;
a lone comma becomes the decimal point.  Mirrors

`t = lastC > lastD ? t.replace(/\./g, '').replace(',', '.') : t.replace(/,/g, '')`
-/
def normalizeSeps (t : List Char) : List Char :=
  let hasC := t.contains ','
  let hasD := t.contains '.'
  if hasC && hasD then
    if lastIdx t ',' > lastIdx t '.' then
      replaceFirst (t.filter (fun c => c ≠ '.')) ',' '.'
    else
      t.filter (fun c => c ≠ ',')
  else if hasC then
    replaceFirst t ',' '.'
  else t

/-- The anchored regex `/^[-+]?\d+[.]$/` of `parseAmountString`
(`TransactionAddRow`): an optional sign, one or more digits, and a single
trailing decimal point. -/
def trailingDotOnly (l : List Char) : Bool :=
  let m := (splitSign l).2
  match m.getLast? with
  | some '.' => m.dropLast ≠ [] && m.dropLast.all isDigitChar
  | _ => false

/-- The unanchored regex `/[-+]?\d+[.]?$/` of `parseDecimal`
(`src/lib/number.ts`): because the pattern is not anchored at the start, it
matches exactly when the string ends in a digit, or ends in a decimal point
preceded by a digit. -/
def endsDigitish (l : List Char) : Bool :=
  match l.reverse with
  | [] => false
  | c :: rest =>
    if isDigitChar c then true
    else if c = '.' then
      match rest with
      | d :: _ => isDigitChar d
      | [] => false
    else false

/-- `parseAmountString` from `TransactionAddRow` (newest revision):
trim and strip whitespace, normalize the separators taking the last of
comma/period as the decimal separator, reject an unfinished
`sign? digits '.'` input, convert with `Number`. -/
def parseAmountString (s : String) : Option DecNum :=
  let t0 := stripWs s.data
  if t0 = [] then none
  else
    let t := normalizeSeps t0
    if trailingDotOnly t then none
    else jsNumber t

/-- `parseDecimal` from `src/lib/number.ts`: same normalization, but the
reject-regex lacks the `^` anchor, and the conversion is `parseFloat`. -/
def parseDecimal (s : String) : Option DecNum :=
  let t0 := stripWs s.data
  if t0 = [] then none
  else
    let t := normalizeSeps t0
    if t = ['-'] || endsDigitish t then none
    else jsParseFloat t

/-! ## C7 — decimal-separator disambiguation and trailing-separator
rejection -/

/-- C7: evaluations of the two amount parsers.  `parseAmountString`
behaves as claimed: with both separators present the one occurring last is
the decimal separator and the other is stripped (`"1.234,56"` and
`"1,234.56"` both parse to the exact value 1234.56), and a lone trailing
separator is rejected.  `parseDecimal`, however, returns `none` on
`"5,23"` and `"1.234,56"` — the very examples of its own doc comment —
because its reject-regex `/[-+]?\d+[.]?$/` lacks the `^` anchor and so
matches every normalized string that ends in a digit. -/
theorem C7_parser_evaluation :
    parseDecimal "5,23" = none ∧
    parseDecimal "1.234,56" = none ∧
    parseAmountString "5,23" = some ⟨523, 2⟩ ∧
    parseAmountString "1.234,56" = some ⟨123456, 2⟩ ∧
    parseAmountString "1,234.56" = some ⟨123456, 2⟩ ∧
    DecNum.toRat ⟨123456, 2⟩ = (123456 : ℚ) / 100 ∧
    parseAmountString "5," = none ∧
    parseAmountString "5." = none ∧
    parseDecimal "5," = none ∧
    parseDecimal "5." = none :=
  ⟨by decide, by decide, by decide, by decide, by decide,
    by norm_num [DecNum.toRat], by decide, by decide, by decide, by decide⟩

/-! ## Substrings and case folding -/

/-- `startsWith p t`: the pattern `p` is an initial segment of `t`. -/
def startsWith : List Char → List Char → Bool
  | [], _ => true
  | _ :: _, [] => false
  | a :: as, b :: bs => a = b && startsWith as bs

/-- `containsSeq p t`: the pattern `p` occurs contiguously in `t`
(JS `String.prototype.includes`). -/
def containsSeq (p : List Char) : List Char → Bool
  | [] => p.isEmpty
  | c :: cs => startsWith p (c :: cs) || containsSeq p cs

/-- ASCII lower-casing of a character: the folding SQLite `COLLATE NOCASE`
applies (A–Z only). -/
def asciiLower (c : Char) : Char :=
  if 'A' ≤ c && c ≤ 'Z' then Char.ofNat (c.toNat + 32) else c

/-- Case folding of a character list. -/
def foldCase (l : List Char) : List Char := l.map asciiLower

/-- Case-insensitive equality of names, the SQLite `NOCASE` comparison. -/
def nocaseEq (a b : String) : Bool := foldCase a.data = foldCase b.data

/-! ## Data model

From the baseline SQLite schema and `types.ts`: `accounts(id, name, color,
type)`, `categories(id, name COLLATE NOCASE UNIQUE)`,
`transactions(id, account_id, date, description, amount, category,
category_id)`.  The schema stores no balance column, and since the
`reimbursement_account_id` drop migration a transaction row carries no link
to a mirror row. -/

/-- `"standard" | "reimbursable"`. -/
inductive AccountType
  | standard
  | reimbursable
deriving DecidableEq, Repr

/-- A row of the `accounts` table (no stored balance). -/
structure AccountRow where
  id : Nat
  name : String
  color : Option String
  type : AccountType
deriving DecidableEq, Repr

/-- A row of the `categories` table. -/
structure Category where
  id : Nat
  name : String
deriving DecidableEq, Repr

/-- A row of the `transactions` table (post `reimbursement_account_id`
drop migration: no link column). -/
structure Tx where
  id : Nat
  account_id : Nat
  date : String
  description : Option String
  amount : ℚ
  category_id : Option Nat
  category : Option String
deriving DecidableEq, Repr

/-- The payload of one `add_transaction` call (`NewTransaction` in
`types.ts`, current revision: no reimbursement link field). -/
structure NewTransaction where
  account_id : Nat
  date : String
  description : Option String
  amount : ℚ
  category : Option String
deriving DecidableEq, Repr

/-- The persistent store: the three tables. -/
structure Store where
  accounts : List AccountRow
  categories : List Category
  txs : List Tx
deriving DecidableEq, Repr

/-! ## Ledger writes -/

/-- Next `AUTOINCREMENT` id for the transactions table. -/
def nextTxId (st : Store) : Nat :=
  st.txs.foldl (fun m t => max m t.id) 0 + 1

/-- Next `AUTOINCREMENT` id for the categories table. -/
def nextCatId (cats : List Category) : Nat :=
  cats.foldl (fun m c => max m c.id) 0 + 1

/-- Case-insensitive category lookup (`COLLATE NOCASE`). -/
def findCategory (cats : List Category) (name : String) : Option Category :=
  cats.find? (fun c => nocaseEq c.name name)

/-- Modelled from the spec: the Category Directory's `canonicalize` as used
by the missing `add_transaction` backend — trim, empty yields no category,
otherwise case-insensitive lookup returning the existing spelling, else a
new entry.  Returns the updated table, the resolved id, and the stored
display text. -/
def resolveCategory (cats : List Category) (raw : Option String) :
    List Category × Option Nat × Option String :=
  match raw with
  | none => (cats, none, none)
  | some s =>
    let t := trimStr s
    if t.data = [] then (cats, none, none)
    else
      match findCategory cats t with
      | some c => (cats, some c.id, some c.name)
      | none => (cats ++ [⟨nextCatId cats, t⟩], some (nextCatId cats), some t)

/-- Modelled from the spec: the missing `add_transaction` backend command —
canonicalize the category, then append one transaction row with a fresh id.
A single call writes a single row. -/
def insertTx (st : Store) (n : NewTransaction) : Store :=
  let (cats, cid, cname) := resolveCategory st.categories n.category
  { st with
    categories := cats
    txs := st.txs ++ [{
      id := nextTxId st
      account_id := n.account_id
      date := n.date
      description := n.description
      amount := n.amount
      category_id := cid
      category := cname }] }

/-- The frontend's sequence of independent `await onAdd(...)` calls: each
backend call either commits its row (`true`) or throws (`false`); a throw
aborts the remaining calls of the `try` block, and the rows already
committed stay — the source wraps the calls in no unit of work and has no
rollback path. -/
def runAdds : Store → List NewTransaction → List Bool → Store
  | st, r :: rs, b :: bs => if b then runAdds (insertTx st r) rs bs else st
  | st, _, _ => st

/-- Modelled from the spec: the balance read of the missing backend — a
single summation scan over the transaction rows of the account
(`balance(accountId) = Σ amount where account_id = accountId`); the schema
stores no balance column. -/
def balance (st : Store) (a : Nat) : ℚ :=
  st.txs.foldl (fun acc t => if t.account_id = a then acc + t.amount else acc) 0

/-- The specification's Σ-formula for an account balance, stated
independently of the scan order. -/
def txSumSpec (st : Store) (a : Nat) : ℚ :=
  ((st.txs.filter (fun t => t.account_id = a)).map Tx.amount).sum

/-! ## The `TransactionAddRow` submit protocol (newest revision) -/

/-- `accounts.find(a => a.id === id)?.name ?? String(id)`. -/
def accountNameOf (accounts : List AccountRow) (aid : Nat) : String :=
  match accounts.find? (fun a => a.id = aid) with
  | some a => a.name
  | none => toString aid

/-- The derived transfer description:
`(notes.trim() ? notes.trim() + ' ' : '') + '[' + src + ' -> ' + dst + ']'`. -/
def transferDesc (accounts : List AccountRow) (srcId dstId : Nat)
    (notes : String) : String :=
  let n := trimChars notes.data
  ⟨(if n = [] then [] else n ++ [' ']) ++
    ('[' :: (accountNameOf accounts srcId).data ++
      (" -> ".data ++ ((accountNameOf accounts dstId).data ++ [']'])))⟩

/-- The two `onAdd` payloads of the transfer branch of `onSubmit`:
`-Math.abs(amt)` on the source, `Math.abs(amt)` on the destination, same
date, same derived description, category `'Transfer'`. -/
def submitTransfer (accounts : List AccountRow) (srcId dstId : Nat)
    (iso notes : String) (amt : ℚ) : List NewTransaction :=
  let desc := transferDesc accounts srcId dstId notes
  [⟨srcId, iso, some desc, -|amt|, some "Transfer"⟩,
   ⟨dstId, iso, some desc, |amt|, some "Transfer"⟩]

/-- `notes.trim() || null`. -/
def descOfNotes (notes : String) : Option String :=
  let n := trimChars notes.data
  if n = [] then none else some ⟨n⟩

/-- The `onAdd` payloads of the income/expense branch of `onSubmit`: the
primary row (sign by intent), and — when a reimbursable account distinct
from the primary account is chosen — a mirror payload identical except for
the account. -/
def submitMovement (isIncome : Bool) (accountId : Nat) (reimId : Option Nat)
    (iso notes category : String) (amt : ℚ) : List NewTransaction :=
  let a := if isIncome then |amt| else -|amt|
  let p : NewTransaction :=
    ⟨accountId, iso, descOfNotes notes, a, some (trimStr category)⟩
  match reimId with
  | some r => if r ≠ accountId then [p, { p with account_id := r }] else [p]
  | none => [p]

/-- The three submit intents of the form. -/
inductive TxKind
  | income
  | transfer
  | expense
deriving DecidableEq, Repr

/-- The validated state of the add-row form at submit time: `iso` is the
parsed date, `amt` the parsed non-zero amount, and `category` the raw
category field — present in the state for every intent, including
transfers. -/
structure FormState where
  txType : TxKind
  iso : String
  notes : String
  amt : ℚ
  category : String
  accountId : Nat
  reimId : Option Nat
  srcId : Nat
  dstId : Nat
deriving Repr

/-- The full `onSubmit` dispatch: the list of `onAdd` payloads issued for
the form state. -/
def submitRows (accounts : List AccountRow) (f : FormState) :
    List NewTransaction :=
  match f.txType with
  | .income => submitMovement true f.accountId f.reimId f.iso f.notes f.category f.amt
  | .expense => submitMovement false f.accountId f.reimId f.iso f.notes f.category f.amt
  | .transfer => submitTransfer accounts f.srcId f.dstId f.iso f.notes f.amt

/-! ## Helper lemmas -/

theorem startsWith_append_self (p b : List Char) :
    startsWith p (p ++ b) = true := by
  induction p with
  | nil => rfl
  | cons c cs ih => simp [startsWith, ih]

theorem containsSeq_nil_pat (t : List Char) : containsSeq [] t = true := by
  cases t with
  | nil => rfl
  | cons c cs => simp [containsSeq, startsWith]

theorem containsSeq_self_append (p b : List Char) :
    containsSeq p (p ++ b) = true := by
  cases p with
  | nil => simpa using containsSeq_nil_pat b
  | cons c cs =>
    simp only [List.cons_append, containsSeq, Bool.or_eq_true]
    exact Or.inl (by simpa [startsWith] using startsWith_append_self cs b)

theorem containsSeq_of_infix (p a b : List Char) :
    containsSeq p (a ++ (p ++ b)) = true := by
  induction a with
  | nil => simpa using containsSeq_self_append p b
  | cons c cs ih => simp [containsSeq, ih]

theorem insertTx_txs (st : Store) (n : NewTransaction) :
    (insertTx st n).txs = st.txs ++
      [{ id := nextTxId st
         account_id := n.account_id
         date := n.date
         description := n.description
         amount := n.amount
         category_id := (resolveCategory st.categories n.category).2.1
         category := (resolveCategory st.categories n.category).2.2 }] := rfl

theorem balance_insertTx (st : Store) (n : NewTransaction) (a : Nat) :
    balance (insertTx st n) a =
      balance st a + (if n.account_id = a then n.amount else 0) := by
  unfold balance
  rw [insertTx_txs, List.foldl_append]
  by_cases h : n.account_id = a <;> simp [h]

theorem foldl_balance_eq (a : Nat) (l : List Tx) (acc : ℚ) :
    l.foldl (fun acc t => if t.account_id = a then acc + t.amount else acc) acc =
      acc + ((l.filter (fun t => t.account_id = a)).map Tx.amount).sum := by
  induction l generalizing acc with
  | nil => simp
  | cons t ts ih =>
    by_cases h : t.account_id = a <;>
      simp [List.foldl_cons, List.filter_cons, h, ih, add_assoc]

theorem balance_eq_txSumSpec (st : Store) (a : Nat) :
    balance st a = txSumSpec st a := by
  simpa [balance, txSumSpec] using foldl_balance_eq a st.txs 0

/-! ## A small concrete ledger used by counterexamples and witnesses -/

/-- Two standard accounts. -/
def demoAccounts : List AccountRow :=
  [⟨1, "Checking", none, .standard⟩, ⟨2, "Savings", none, .standard⟩]

/-- An unlocked store holding the two demo accounts and no transactions. -/
def demoStore : Store := ⟨demoAccounts, [], []⟩

/-! ## C1 — transfer atomicity -/

/-- C1, counterexample.  The claim says the transfer pair is committed as a
single all-or-nothing unit of work, so that the ledger never ends in a
state containing exactly one row of the pair.  The source issues the two
rows as two sequential independent `onAdd` calls; executing them against
the empty demo ledger with the second backend call failing leaves exactly
the source row (amount −10) committed and no destination row — the state
the claim rules out. -/
theorem C1_counterexample :
    (runAdds demoStore
        (submitTransfer demoAccounts 1 2 "2024-01-01" "" 10)
        [true, false]).txs =
      [{ id := 1
         account_id := 1
         date := "2024-01-01"
         description := some "[Checking -> Savings]"
         amount := -10
         category_id := some 1
         category := some "Transfer" }] := by
  decide

/-- C1 (amended): a transfer write issues its two rows as two sequential
independent `add_transaction` calls with no enclosing unit of work.  If the
second (destination) write fails, the first (source) row remains committed
— the ledger then contains exactly one row of the pair; both rows are in
the ledger only when both calls succeed. -/
theorem C1_transfer_no_rollback (st : Store) (accounts : List AccountRow)
    (src dst : Nat) (iso notes : String) (amt : ℚ) :
    runAdds st (submitTransfer accounts src dst iso notes amt) [true, false] =
      insertTx st
        ⟨src, iso, some (transferDesc accounts src dst notes), -|amt|,
          some "Transfer"⟩ ∧
    runAdds st (submitTransfer accounts src dst iso notes amt) [true, true] =
      insertTx
        (insertTx st
          ⟨src, iso, some (transferDesc accounts src dst notes), -|amt|,
            some "Transfer"⟩)
        ⟨dst, iso, some (transferDesc accounts src dst notes), |amt|,
          some "Transfer"⟩ := ⟨rfl, rfl⟩

/-! ## C6 — reimbursement mirror -/

/-- C6: when an income or expense write is paired with a chosen
reimbursable account distinct from the primary account, exactly two
`add_transaction` payloads are issued, and the mirror payload is the
primary payload with only the account changed: same signed amount, same
date, same description, same category.  The `NewTransaction` payload and
the stored `Tx` row (schema after the `reimbursement_account_id` drop
migration) have no field linking the pair; the second conjunct shows the
two stored rows, identical except for the account. -/
theorem C6_reimbursement_mirror (st : Store) (isIncome : Bool)
    (accountId r : Nat) (iso notes category : String) (amt : ℚ)
    (h : r ≠ accountId) :
    submitMovement isIncome accountId (some r) iso notes category amt =
      [⟨accountId, iso, descOfNotes notes,
          if isIncome then |amt| else -|amt|, some (trimStr category)⟩,
        ⟨r, iso, descOfNotes notes,
          if isIncome then |amt| else -|amt|, some (trimStr category)⟩] ∧
    ((runAdds st
        (submitMovement isIncome accountId (some r) iso notes category amt)
        [true, true]).txs.map
          (fun t => (t.account_id, t.date, t.description, t.amount))) =
      st.txs.map (fun t => (t.account_id, t.date, t.description, t.amount)) ++
        [(accountId, iso, descOfNotes notes,
            if isIncome then |amt| else -|amt|),
          (r, iso, descOfNotes notes,
            if isIncome then |amt| else -|amt|)] := by
  refine ⟨by simp [submitMovement, h], ?_⟩
  simp [submitMovement, h, runAdds, insertTx_txs]

/-- C6, witness: the mirror protocol evaluated on the demo ledger for an
expense of 25 on account 1 mirrored to account 2. -/
theorem C6_reimbursement_mirror_witness :
    submitMovement false 1 (some 2) "2024-01-02" " lunch " "Food" 25 =
      [⟨1, "2024-01-02", descOfNotes " lunch ",
          if false then |(25 : ℚ)| else -|(25 : ℚ)|, some (trimStr "Food")⟩,
        ⟨2, "2024-01-02", descOfNotes " lunch ",
          if false then |(25 : ℚ)| else -|(25 : ℚ)|, some (trimStr "Food")⟩] ∧
    ((runAdds demoStore
        (submitMovement false 1 (some 2) "2024-01-02" " lunch " "Food" 25)
        [true, true]).txs.map
          (fun t => (t.account_id, t.date, t.description, t.amount))) =
      demoStore.txs.map
          (fun t => (t.account_id, t.date, t.description, t.amount)) ++
        [(1, "2024-01-02", descOfNotes " lunch ",
            if false then |(25 : ℚ)| else -|(25 : ℚ)|),
          (2, "2024-01-02", descOfNotes " lunch ",
            if false then |(25 : ℚ)| else -|(25 : ℚ)|)] :=
  C6_reimbursement_mirror demoStore false 1 2 "2024-01-02" " lunch " "Food" 25
    (by decide)

/-! ## C2 — transfer pair shape and conservation -/

/-- C2: a transfer write of amount `m` from `src` to `dst` produces exactly
two rows: amounts `−|m|` and `+|m|`, the same date on both, and one shared
derived description containing both account names; committing the pair
leaves `balance src + balance dst` unchanged. -/
theorem C2_transfer_pair (st : Store) (accounts : List AccountRow)
    (src dst : Nat) (iso notes : String) (amt : ℚ) (aS aD : AccountRow)
    (hne : src ≠ dst)
    (hS : accounts.find? (fun a => a.id = src) = some aS)
    (hD : accounts.find? (fun a => a.id = dst) = some aD) :
    (submitTransfer accounts src dst iso notes amt).length = 2 ∧
    (submitTransfer accounts src dst iso notes amt).map
        NewTransaction.amount = [-|amt|, |amt|] ∧
    (submitTransfer accounts src dst iso notes amt).map
        NewTransaction.date = [iso, iso] ∧
    (submitTransfer accounts src dst iso notes amt).map
        NewTransaction.description =
      [some (transferDesc accounts src dst notes),
        some (transferDesc accounts src dst notes)] ∧
    containsSeq aS.name.data (transferDesc accounts src dst notes).data = true ∧
    containsSeq aD.name.data (transferDesc accounts src dst notes).data = true ∧
    balance (runAdds st (submitTransfer accounts src dst iso notes amt)
        [true, true]) src +
      balance (runAdds st (submitTransfer accounts src dst iso notes amt)
        [true, true]) dst =
      balance st src + balance st dst := by
  have hname : transferDesc accounts src dst notes =
      ⟨(if trimChars notes.data = [] then [] else trimChars notes.data ++ [' '])
        ++ ('[' :: aS.name.data ++ (" -> ".data ++ (aD.name.data ++ [']'])))⟩ := by
    simp [transferDesc, accountNameOf, hS, hD]
  refine ⟨rfl, rfl, rfl, rfl, ?_, ?_, ?_⟩
  · rw [hname]
    have := containsSeq_of_infix aS.name.data
      ((if trimChars notes.data = [] then [] else trimChars notes.data ++ [' '])
        ++ ['['])
      (" -> ".data ++ (aD.name.data ++ [']']))
    simpa [List.append_assoc] using this
  · rw [hname]
    have := containsSeq_of_infix aD.name.data
      (((if trimChars notes.data = [] then [] else trimChars notes.data ++ [' '])
        ++ ('[' :: aS.name.data ++ " -> ".data)))
      [']']
    simpa [List.append_assoc] using this
  · have hstep : runAdds st (submitTransfer accounts src dst iso notes amt)
        [true, true] =
        insertTx (insertTx st
          ⟨src, iso, some (transferDesc accounts src dst notes), -|amt|,
            some "Transfer"⟩)
          ⟨dst, iso, some (transferDesc accounts src dst notes), |amt|,
            some "Transfer"⟩ := rfl
    rw [hstep, balance_insertTx, balance_insertTx, balance_insertTx,
      balance_insertTx]
    have h2 : dst ≠ src := Ne.symm hne
    simp [h2, hne]
    ring

/-- C2, witness: a transfer of 10 from account 1 (`Checking`) to account 2
(`Savings`) on the demo ledger. -/
theorem C2_transfer_pair_witness :
    (submitTransfer demoAccounts 1 2 "2024-01-01" "" 10).length = 2 ∧
    (submitTransfer demoAccounts 1 2 "2024-01-01" "" 10).map
        NewTransaction.amount = [-|(10 : ℚ)|, |(10 : ℚ)|] ∧
    (submitTransfer demoAccounts 1 2 "2024-01-01" "" 10).map
        NewTransaction.date = ["2024-01-01", "2024-01-01"] ∧
    (submitTransfer demoAccounts 1 2 "2024-01-01" "" 10).map
        NewTransaction.description =
      [some (transferDesc demoAccounts 1 2 ""),
        some (transferDesc demoAccounts 1 2 "")] ∧
    containsSeq "Checking".data (transferDesc demoAccounts 1 2 "").data = true ∧
    containsSeq "Savings".data (transferDesc demoAccounts 1 2 "").data = true ∧
    balance (runAdds demoStore (submitTransfer demoAccounts 1 2 "2024-01-01" "" 10)
        [true, true]) 1 +
      balance (runAdds demoStore (submitTransfer demoAccounts 1 2 "2024-01-01" "" 10)
        [true, true]) 2 =
      balance demoStore 1 + balance demoStore 2 :=
  C2_transfer_pair demoStore demoAccounts 1 2 "2024-01-01" "" 10
    ⟨1, "Checking", none, .standard⟩ ⟨2, "Savings", none, .standard⟩
    (by decide) (by decide) (by decide)

/-! ## C10 — fixed transfer category -/

/-- C10: for every form state submitted with the transfer intent — whatever
the form's category field holds, which the transfer branch never reads —
both issued rows carry the fixed category `"Transfer"`. -/
theorem C10_transfer_fixed_category (accounts : List AccountRow)
    (f : FormState) (h : f.txType = .transfer) :
    (submitRows accounts f).map NewTransaction.category =
      [some "Transfer", some "Transfer"] := by
  simp [submitRows, h, submitTransfer]

/-- C10, witness: a transfer form state whose category field holds
`"Groceries"`; both issued rows still carry category `"Transfer"`. -/
theorem C10_transfer_fixed_category_witness :
    (submitRows demoAccounts
        { txType := .transfer, iso := "2024-01-03", notes := "", amt := 10,
          category := "Groceries", accountId := 1, reimId := none,
          srcId := 1, dstId := 2 }).map NewTransaction.category =
      [some "Transfer", some "Transfer"] :=
  C10_transfer_fixed_category demoAccounts _ rfl

/-! ## C3 — balances are derived, never stored -/

/-- A completed higher-level write intent: a simple movement (optionally
mirrored) or a transfer pair, all row insertions committed. -/
inductive WriteOp
  | movement (isIncome : Bool) (accountId : Nat) (reimId : Option Nat)
      (iso notes category : String) (amt : ℚ)
  | transfer (src dst : Nat) (iso notes : String) (amt : ℚ)
deriving Repr

/-- Apply one completed write intent: every row of the intent committed via
`add_transaction`. -/
def applyWrite (st : Store) : WriteOp → Store
  | .movement isIncome accountId reimId iso notes category amt =>
    (submitMovement isIncome accountId reimId iso notes category amt).foldl
      insertTx st
  | .transfer src dst iso notes amt =>
    (submitTransfer st.accounts src dst iso notes amt).foldl insertTx st

/-- Apply a sequence of completed writes. -/
def applyWrites (st : Store) (ops : List WriteOp) : Store :=
  ops.foldl applyWrite st

/-- C3: after any sequence of completed writes (simple movements,
reimbursement mirrors, transfer pairs), the balance read of every account
equals the Σ-of-amounts formula over the transactions referencing it; and
the balance read is a function of the transaction rows alone — two stores
with the same transaction rows expose the same balances, there being no
stored balance state (the embedded `AccountRow`, like the `accounts`
schema, has no balance column). -/
theorem C3_balance_always_derived (st stA stB : Store) (ops : List WriteOp)
    (a : Nat) (h : stA.txs = stB.txs) :
    balance (applyWrites st ops) a = txSumSpec (applyWrites st ops) a ∧
    balance stA a = balance stB a := by
  refine ⟨balance_eq_txSumSpec _ _, ?_⟩
  unfold balance
  rw [h]

/-- C3, witness: an expense with mirror followed by a transfer on the demo
ledger, compared across two stores sharing the empty transaction list. -/
theorem C3_balance_always_derived_witness :
    balance (applyWrites demoStore
        [.movement false 1 (some 2) "2024-01-02" "" "Food" 25,
          .transfer 1 2 "2024-01-03" "" 10]) 1 =
      txSumSpec (applyWrites demoStore
        [.movement false 1 (some 2) "2024-01-02" "" "Food" 25,
          .transfer 1 2 "2024-01-03" "" 10]) 1 ∧
    balance demoStore 1 = balance ⟨[], [], []⟩ 1 :=
  C3_balance_always_derived demoStore demoStore ⟨[], [], []⟩
    [.movement false 1 (some 2) "2024-01-02" "" "Food" 25,
      .transfer 1 2 "2024-01-03" "" 10] 1 rfl

/-! ## C5 — referential deletion guards -/

/-- The referential error classes the frontend distinguishes. -/
inductive ApiError
  | AccountInUse
  | CategoryInUse
  | DuplicateCategory
deriving DecidableEq, Repr

/-- Modelled from the spec: the missing `delete_account` backend command —
it refuses with `AccountInUse` while any transaction references the
account (the Accounts page states the call "will throw if transactions
exist"), else removes the account row.  Returns the resulting store and
the error; on error the store is returned unchanged. -/
def deleteAccount (st : Store) (aid : Nat) : Store × Option ApiError :=
  if st.txs.any (fun t => t.account_id = aid) then (st, some .AccountInUse)
  else ({ st with accounts := st.accounts.filter (fun a => a.id ≠ aid) }, none)

/-- Modelled from the spec: the missing `delete_category` backend command —
it refuses with `CategoryInUse` while any transaction references the
category (the Categories page matches the backend error against
`/in use/i`), else removes the category row. -/
def deleteCategory (st : Store) (cid : Nat) : Store × Option ApiError :=
  if st.txs.any (fun t => t.category_id = some cid) then
    (st, some .CategoryInUse)
  else ({ st with categories := st.categories.filter (fun c => c.id ≠ cid) }, none)

/-- C5: deleting an account referenced by at least one transaction fails
with `AccountInUse`, deleting a category referenced by at least one
transaction fails with `CategoryInUse`, and in both cases the store — in
particular every transaction row — is returned unchanged. -/
theorem C5_referential_delete (st : Store) (aid cid : Nat)
    (hA : st.txs.any (fun t => t.account_id = aid) = true)
    (hC : st.txs.any (fun t => t.category_id = some cid) = true) :
    deleteAccount st aid = (st, some .AccountInUse) ∧
    deleteCategory st cid = (st, some .CategoryInUse) := by
  constructor <;> simp [deleteAccount, deleteCategory, hA, hC]

/-- A demo store holding one expense that references account 1 and
category 1. -/
def demoStoreTx : Store :=
  ⟨demoAccounts, [⟨1, "Food"⟩],
    [⟨1, 1, "2024-01-01", none, -5, some 1, some "Food"⟩]⟩

/-- C5, witness: deleting the referenced account 1 and the referenced
category 1 of the demo store both fail and leave the store unchanged. -/
theorem C5_referential_delete_witness :
    deleteAccount demoStoreTx 1 = (demoStoreTx, some .AccountInUse) ∧
    deleteCategory demoStoreTx 1 = (demoStoreTx, some .CategoryInUse) :=
  C5_referential_delete demoStoreTx 1 1 (by decide) (by decide)

/-! ## C8 — case-insensitive category uniqueness -/

/-- A category mutation: `add_category` or `rename_category`. -/
inductive CatOp
  | create (name : String)
  | rename (id : Nat) (name : String)
deriving Repr

/-- Modelled from the schema: the `categories.name COLLATE NOCASE UNIQUE`
constraint — an insert or update whose name collides case-insensitively
with a different existing row fails with a conflict error and leaves the
table unchanged; otherwise the row is inserted or updated. -/
def applyCatOp (cats : List Category) : CatOp → List Category × Option ApiError
  | .create name =>
    if cats.any (fun c => nocaseEq c.name name) then
      (cats, some .DuplicateCategory)
    else (cats ++ [⟨nextCatId cats, name⟩], none)
  | .rename id name =>
    if cats.any (fun c => c.id ≠ id && nocaseEq c.name name) then
      (cats, some .DuplicateCategory)
    else
      (cats.map (fun c => if c.id = id then { c with name := name } else c),
        none)

/-- Apply a sequence of category mutations, each failed one leaving the
table unchanged. -/
def applyCatOps (cats : List Category) (ops : List CatOp) : List Category :=
  ops.foldl (fun cs op => (applyCatOp cs op).1) cats

/-- The category-table invariant: pairwise distinct ids (primary key) and
pairwise case-insensitively distinct names (`NOCASE UNIQUE`). -/
def catInv (cats : List Category) : Prop :=
  cats.Pairwise (fun a b => a.id ≠ b.id ∧ foldCase a.name.data ≠ foldCase b.name.data)

theorem le_foldl_maxCat (l : List Category) (b : Nat) :
    b ≤ l.foldl (fun m c => max m c.id) b := by
  induction l generalizing b with
  | nil => simp
  | cons c cs ih => exact le_trans (le_max_left b c.id) (ih (max b c.id))

theorem mem_le_foldl_maxCat (l : List Category) (b : Nat) (c : Category)
    (h : c ∈ l) : c.id ≤ l.foldl (fun m c => max m c.id) b := by
  induction l generalizing b with
  | nil => cases h
  | cons d ds ih =>
    rcases List.mem_cons.mp h with rfl | h2
    · exact le_trans (le_max_right b c.id) (le_foldl_maxCat ds _)
    · exact ih _ h2

theorem mem_id_lt_nextCatId (cats : List Category) (c : Category)
    (h : c ∈ cats) : c.id < nextCatId cats :=
  Nat.lt_succ_of_le (mem_le_foldl_maxCat cats 0 c h)

theorem catInv_create (cats : List Category) (name : String)
    (hinv : catInv cats)
    (hno : cats.any (fun c => nocaseEq c.name name) = false) :
    catInv (cats ++ [⟨nextCatId cats, name⟩]) := by
  rw [catInv, List.pairwise_append]
  refine ⟨hinv, List.pairwise_singleton _ _, ?_⟩
  intro a ha b hb
  rcases List.mem_singleton.mp hb with rfl
  refine ⟨Nat.ne_of_lt (mem_id_lt_nextCatId cats a ha), ?_⟩
  intro heq
  have : cats.any (fun c => nocaseEq c.name name) = true :=
    List.any_eq_true.mpr ⟨a, ha, by simp [nocaseEq, heq]⟩
  simp [this] at hno

theorem catInv_rename (cats : List Category) (id : Nat) (name : String)
    (hinv : catInv cats)
    (hno : cats.any (fun c => c.id ≠ id && nocaseEq c.name name) = false) :
    catInv (cats.map
      (fun c => if c.id = id then { c with name := name } else c)) := by
  rw [catInv, List.pairwise_map]
  have key : ∀ a ∈ cats,
      ¬(a.id ≠ id ∧ foldCase a.name.data = foldCase name.data) := by
    intro a ha hcon
    have : cats.any (fun c => c.id ≠ id && nocaseEq c.name name) = true :=
      List.any_eq_true.mpr ⟨a, ha, by simp [nocaseEq, hcon.1, hcon.2]⟩
    rw [hno] at this
    exact absurd this Bool.false_ne_true
  refine List.Pairwise.imp_of_mem ?_ hinv
  intro a b ha hb hR
  by_cases hA : a.id = id <;> by_cases hB : b.id = id
  · exact absurd (hA.trans hB.symm) hR.1
  · refine ⟨by simpa [hA, hB] using hR.1, ?_⟩
    simp only [hA, if_pos rfl, hB, if_neg hB]
    intro heq
    exact key b hb ⟨hB, heq.symm⟩
  · refine ⟨by simpa [hA, hB] using hR.1, ?_⟩
    simp only [hB, if_pos rfl, hA, if_neg hA]
    intro heq
    exact key a ha ⟨hA, heq⟩
  · simpa [hA, hB] using hR

theorem catInv_applyCatOp (cats : List Category) (op : CatOp)
    (h : catInv cats) : catInv (applyCatOp cats op).1 := by
  cases op with
  | create name =>
    cases hc : cats.any (fun c => nocaseEq c.name name) with
    | true =>
      simp only [applyCatOp]
      rw [if_pos hc]
      exact h
    | false =>
      simp only [applyCatOp]
      rw [if_neg (by rw [hc]; exact Bool.false_ne_true)]
      exact catInv_create cats name h hc
  | rename id name =>
    cases hc : cats.any (fun c => c.id ≠ id && nocaseEq c.name name) with
    | true =>
      simp only [applyCatOp]
      rw [if_pos hc]
      exact h
    | false =>
      simp only [applyCatOp]
      rw [if_neg (by rw [hc]; exact Bool.false_ne_true)]
      exact catInv_rename cats id name h hc

theorem catInv_applyCatOps (cats : List Category) (ops : List CatOp)
    (h : catInv cats) : catInv (applyCatOps cats ops) := by
  induction ops generalizing cats with
  | nil => exact h
  | cons op rest ih =>
    have := ih (applyCatOp cats op).1 (catInv_applyCatOp cats op h)
    simpa [applyCatOps, List.foldl_cons] using this

/-- C8: starting from a category table satisfying the case-insensitive
uniqueness invariant, the invariant still holds after any sequence of
create and rename operations; moreover a create whose name collides
case-insensitively with an existing row, and a rename whose new name
collides case-insensitively with a different existing row, both fail with
the conflict error and leave the table unchanged. -/
theorem C8_category_case_insensitive_unique (cats : List Category)
    (ops : List CatOp) (name name2 : String) (id2 : Nat)
    (hinv : catInv cats)
    (hcol : cats.any (fun c => nocaseEq c.name name) = true)
    (hcol2 : cats.any (fun c => c.id ≠ id2 && nocaseEq c.name name2) = true) :
    catInv (applyCatOps cats ops) ∧
    applyCatOp cats (.create name) = (cats, some .DuplicateCategory) ∧
    applyCatOp cats (.rename id2 name2) = (cats, some .DuplicateCategory) :=
  ⟨catInv_applyCatOps cats ops hinv,
    by simp only [applyCatOp]; rw [if_pos hcol],
    by simp only [applyCatOp]; rw [if_pos hcol2]⟩

/-- C8, witness: the table `[Food, Travel]` under a create and a rename;
creating `"food"` and renaming `Travel` to `"FOOD"` both report the
conflict. -/
theorem C8_category_case_insensitive_unique_witness :
    catInv (applyCatOps [⟨1, "Food"⟩, ⟨2, "Travel"⟩]
      [.create "Household", .rename 2 "Trips"]) ∧
    applyCatOp [⟨1, "Food"⟩, ⟨2, "Travel"⟩] (.create "food") =
      ([⟨1, "Food"⟩, ⟨2, "Travel"⟩], some .DuplicateCategory) ∧
    applyCatOp [⟨1, "Food"⟩, ⟨2, "Travel"⟩] (.rename 2 "FOOD") =
      ([⟨1, "Food"⟩, ⟨2, "Travel"⟩], some .DuplicateCategory) :=
  C8_category_case_insensitive_unique [⟨1, "Food"⟩, ⟨2, "Travel"⟩]
    [.create "Household", .rename 2 "Trips"] "food" "FOOD" 2
    (by unfold catInv; decide) (by decide) (by decide)

/-! ## Query engine

The search filter and result shapes are from `types.ts` (newest revision):
the result carries `items`, `total`, the server-computed effective
`offset`, `sum_income` and `sum_expense` — nothing else.  The
`search_transactions` backend command is not part of the frontend sources;
its filtering, sorting, counting, slicing and aggregation are modelled
from the specification. -/

/-- `'all' | 'income' | 'expense'`. -/
inductive TxTypeFilter
  | all
  | income
  | expense
deriving DecidableEq, Repr

/-- `'date' | 'category' | 'description' | 'amount' | 'account' | 'id'`. -/
inductive TxSortBy
  | date
  | category
  | description
  | amount
  | account
  | id
deriving DecidableEq, Repr

/-- `'asc' | 'desc'`. -/
inductive TxSortDir
  | asc
  | desc
deriving DecidableEq, Repr

/-- The `TransactionSearch` filter of `types.ts`; `offset = -1` requests
the last page from the server. -/
structure TransactionSearch where
  query : Option String
  account_id : Option Nat
  date_from : Option String
  date_to : Option String
  tx_type : TxTypeFilter
  limit : Nat
  offset : Int
  sort_by : TxSortBy
  sort_dir : TxSortDir
deriving DecidableEq, Repr

/-- The `TransactionSearchResult` of `types.ts`: items, total, the
server-computed effective offset, and the two aggregate sums. -/
structure TransactionSearchResult where
  items : List Tx
  total : Nat
  offset : Nat
  sum_income : ℚ
  sum_expense : ℚ
deriving DecidableEq, Repr

/-- Lexicographic `≤` on character lists (ISO dates compare correctly this
way). -/
def charListLe : List Char → List Char → Bool
  | [], _ => true
  | _ :: _, [] => false
  | a :: as, b :: bs => if a = b then charListLe as bs else decide (a < b)

/-- Three-way lexicographic comparison on character lists. -/
def charListCmp : List Char → List Char → Ordering
  | [], [] => .eq
  | [], _ :: _ => .lt
  | _ :: _, [] => .gt
  | a :: as, b :: bs =>
    if a < b then .lt else if b < a then .gt else charListCmp as bs

/-- Three-way comparison on rationals. -/
def ratCmp (a b : ℚ) : Ordering :=
  if a < b then .lt else if b < a then .gt else .eq

/-- Three-way comparison on naturals. -/
def natCmp (a b : Nat) : Ordering :=
  if a < b then .lt else if b < a then .gt else .eq

/-- Modelled from the spec: the free-text part of the filter — a
case-insensitive substring match over description and category. -/
def queryMatches (q : String) (t : Tx) : Bool :=
  containsSeq (foldCase q.data) (foldCase (t.description.getD "").data) ||
  containsSeq (foldCase q.data) (foldCase (t.category.getD "").data)

/-- Modelled from the spec: one row against the search filter — free text,
single-account restriction, inclusive date range, and the income/expense
type restriction carried by the amount sign. -/
def matchesFilter (f : TransactionSearch) (t : Tx) : Bool :=
  (match f.query with
    | none => true
    | some q => queryMatches q t) &&
  (match f.account_id with
    | none => true
    | some aid => t.account_id = aid) &&
  (match f.date_from with
    | none => true
    | some d => charListLe d.data t.date.data) &&
  (match f.date_to with
    | none => true
    | some d => charListLe t.date.data d.data) &&
  (match f.tx_type with
    | .all => true
    | .income => decide (0 < t.amount)
    | .expense => decide (t.amount < 0))

/-- The rows of the store matching the filter. -/
def matchedTxs (st : Store) (f : TransactionSearch) : List Tx :=
  st.txs.filter (matchesFilter f)

/-- Modelled from the spec: the requested sort key of a pair of rows
(account sorts by account name). -/
def sortKeyCmp (accounts : List AccountRow) (f : TransactionSearch)
    (a b : Tx) : Ordering :=
  match f.sort_by with
  | .date => charListCmp a.date.data b.date.data
  | .category => charListCmp (a.category.getD "").data (b.category.getD "").data
  | .description =>
    charListCmp (a.description.getD "").data (b.description.getD "").data
  | .amount => ratCmp a.amount b.amount
  | .account =>
    charListCmp (accountNameOf accounts a.account_id).data
      (accountNameOf accounts b.account_id).data
  | .id => natCmp a.id b.id

/-- Modelled from the spec: the ordering contract — requested key and
direction first, ties broken by ascending identifier. -/
def txLe (accounts : List AccountRow) (f : TransactionSearch)
    (a b : Tx) : Bool :=
  match (match f.sort_dir with
          | .asc => sortKeyCmp accounts f a b
          | .desc => (sortKeyCmp accounts f a b).swap) with
  | .lt => true
  | .gt => false
  | .eq => a.id ≤ b.id

/-- Insert into a sorted list. -/
def insertSortedTx (le : Tx → Tx → Bool) (x : Tx) : List Tx → List Tx
  | [] => [x]
  | y :: ys => if le x y then x :: y :: ys else y :: insertSortedTx le x ys

/-- Insertion sort of the matched rows. -/
def sortTxs (le : Tx → Tx → Bool) (l : List Tx) : List Tx :=
  l.foldr (insertSortedTx le) []

/-- Modelled from the spec: the last-page sentinel —
`max(0, total − pageSize)` (`Nat` subtraction) rounded down to a page
boundary. -/
def lastPageOffset (total limit : Nat) : Nat :=
  ((total - limit) / limit) * limit

/-- Modelled from the spec: the missing `search_transactions` backend
command — filter, sort, count the full matching set, derive the effective
offset (last-page sentinel for `offset = −1`, otherwise the requested
offset clamped to `[0, total]`), slice one page, and aggregate income and
expense sums over the entire filtered set. -/
def searchTransactions (st : Store) (f : TransactionSearch) :
    TransactionSearchResult :=
  let matched := matchedTxs st f
  let total := matched.length
  let sorted := sortTxs (txLe st.accounts f) matched
  let eff : Nat :=
    if f.offset < 0 then lastPageOffset total f.limit
    else min f.offset.toNat total
  { items := (sorted.drop eff).take f.limit
    total := total
    offset := eff
    sum_income := ((matched.filter (fun t => 0 < t.amount)).map Tx.amount).sum
    sum_expense := ((matched.filter (fun t => t.amount < 0)).map Tx.amount).sum }

theorem matchedTxs_offset_irrel (st : Store) (f : TransactionSearch)
    (x : Int) : matchedTxs st { f with offset := x } = matchedTxs st f := rfl

theorem lastPageOffset_le (total limit : Nat) :
    lastPageOffset total limit ≤ total :=
  le_trans (Nat.div_mul_le_self _ _) (Nat.sub_le _ _)

/-! ## C4 — pagination sentinel -/

/-- C4: a search with the `offset = −1` sentinel computes the total of the
filtered set, slices from `max(0, total − pageSize)` rounded down to a
page boundary, and returns the same item set (and reports the same
effective offset) as a search with that non-negative offset requested
explicitly; a search with any non-negative requested offset slices from
that offset clamped to `[0, total]`. -/
theorem C4_last_page_sentinel (st : Store) (f : TransactionSearch)
    (off : Int) (hoff : f.offset = -1) (hnn : 0 ≤ off) :
    (searchTransactions st f).items =
      (searchTransactions st
        { f with offset :=
            (lastPageOffset (matchedTxs st f).length f.limit : Int) }).items ∧
    (searchTransactions st f).offset =
      lastPageOffset (matchedTxs st f).length f.limit ∧
    (searchTransactions st { f with offset := off }).offset =
      min off.toNat (matchedTxs st f).length := by
  have hle := lastPageOffset_le (matchedTxs st f).length f.limit
  refine ⟨?_, ?_, ?_⟩
  · show List.take f.limit (List.drop
        (if f.offset < 0 then lastPageOffset (matchedTxs st f).length f.limit
          else min f.offset.toNat (matchedTxs st f).length)
        (sortTxs (txLe st.accounts f) (matchedTxs st f))) =
      List.take f.limit (List.drop
        (if ((lastPageOffset (matchedTxs st f).length f.limit : Nat) : Int) < 0
          then lastPageOffset (matchedTxs st f).length f.limit
          else min ((lastPageOffset (matchedTxs st f).length f.limit : Nat) : Int).toNat
            (matchedTxs st f).length)
        (sortTxs (txLe st.accounts f) (matchedTxs st f)))
    rw [hoff]
    rw [if_pos (by norm_num), if_neg (not_lt.mpr (Int.natCast_nonneg _)),
      Int.toNat_natCast, Nat.min_eq_left hle]
  · show (if f.offset < 0 then lastPageOffset (matchedTxs st f).length f.limit
        else min f.offset.toNat (matchedTxs st f).length) =
      lastPageOffset (matchedTxs st f).length f.limit
    rw [hoff, if_pos (by norm_num)]
  · show (if off < 0 then lastPageOffset (matchedTxs st f).length f.limit
        else min off.toNat (matchedTxs st f).length) =
      min off.toNat (matchedTxs st f).length
    rw [if_neg (not_lt.mpr hnn)]

/-- A filter requesting the last page (`offset = −1`) with page size 2. -/
def pageFilter : TransactionSearch :=
  ⟨none, none, none, none, .all, 2, -1, .date, .asc⟩

/-- A store with three dated transactions for pagination witnesses. -/
def pageStore : Store :=
  ⟨demoAccounts, [],
    [⟨1, 1, "2024-01-01", none, 5, none, none⟩,
      ⟨2, 1, "2024-01-02", none, 7, none, none⟩,
      ⟨3, 2, "2024-01-03", none, -4, none, none⟩]⟩

/-- C4, witness: the last-page sentinel on a three-row store with page
size 2, against the explicit non-negative offset 5. -/
theorem C4_last_page_sentinel_witness :
    (searchTransactions pageStore pageFilter).items =
      (searchTransactions pageStore
        { pageFilter with offset :=
            (lastPageOffset (matchedTxs pageStore pageFilter).length
              pageFilter.limit : Int) }).items ∧
    (searchTransactions pageStore pageFilter).offset =
      lastPageOffset (matchedTxs pageStore pageFilter).length
        pageFilter.limit ∧
    (searchTransactions pageStore { pageFilter with offset := 5 }).offset =
      min (5 : Int).toNat (matchedTxs pageStore pageFilter).length :=
  C4_last_page_sentinel pageStore pageFilter 5 rfl (by decide)

/-! ## C9 — aggregate sums and the absent classification split -/

/-- The classification of the account owning a row. -/
def accountTypeOf (accounts : List AccountRow) (aid : Nat) : AccountType :=
  match accounts.find? (fun a => a.id = aid) with
  | some a => a.type
  | none => .standard

/-- Defined from the claim's words, for comparison with the result type
produced by the source: the income and expense sums of the filtered set
partitioned by the owning account's classification —
`((incomeStandard, incomeReimbursable), (expenseStandard,
expenseReimbursable))`. -/
def classificationSums (st : Store) (f : TransactionSearch) :
    (ℚ × ℚ) × (ℚ × ℚ) :=
  let m := matchedTxs st f
  let inc := m.filter (fun t => 0 < t.amount)
  let ex := m.filter (fun t => t.amount < 0)
  (( ((inc.filter (fun t =>
        accountTypeOf st.accounts t.account_id = .standard)).map Tx.amount).sum,
     ((inc.filter (fun t =>
        accountTypeOf st.accounts t.account_id = .reimbursable)).map Tx.amount).sum),
   ( ((ex.filter (fun t =>
        accountTypeOf st.accounts t.account_id = .standard)).map Tx.amount).sum,
     ((ex.filter (fun t =>
        accountTypeOf st.accounts t.account_id = .reimbursable)).map Tx.amount).sum))

/-- A store with one income of 5 on a standard account. -/
def classStoreStd : Store :=
  ⟨[⟨1, "A", none, .standard⟩], [], [⟨1, 1, "2024-01-01", none, 5, none, none⟩]⟩

/-- The same store with the account reclassified as reimbursable. -/
def classStoreReim : Store :=
  ⟨[⟨1, "A", none, .reimbursable⟩], [],
    [⟨1, 1, "2024-01-01", none, 5, none, none⟩]⟩

/-- An unrestricted first-page filter. -/
def plainFilter : TransactionSearch :=
  ⟨none, none, none, none, .all, 10, 0, .date, .asc⟩

/-- C9, counterexample.  The claim says the search result contains
classification-split sums partitioning income and expense by the owning
account's classification.  The `TransactionSearchResult` the source
declares carries only `items`, `total`, `offset`, `sum_income` and
`sum_expense`: two stores that differ only in the account's classification
produce identical search results while their classification splits differ
— so no component of the result equals (or can recover) the
classification-split sums the claim describes. -/
theorem C9_counterexample :
    searchTransactions classStoreStd plainFilter =
      searchTransactions classStoreReim plainFilter ∧
    classificationSums classStoreStd plainFilter ≠
      classificationSums classStoreReim plainFilter := by
  refine ⟨rfl, ?_⟩
  intro h
  have hA : (classificationSums classStoreStd plainFilter).1.1 = 5 := by
    simp [classificationSums, matchedTxs, matchesFilter, classStoreStd,
      accountTypeOf, plainFilter]
  have hB : (classificationSums classStoreReim plainFilter).1.1 = 0 := by
    simp [classificationSums, matchedTxs, matchesFilter, classStoreReim,
      accountTypeOf, plainFilter]
  have : (5 : ℚ) = 0 := by rw [← hA, h, hB]
  norm_num at this

/-- C9 (amended): the search result exposes `sum_income` — the sum of all
positive amounts of the entire filtered set — and `sum_expense` — the sum
of all negative amounts — both independent of the requested page
(offset and limit); the result carries no classification-split sums. -/
theorem C9_sums_over_entire_filtered_set (st : Store)
    (f : TransactionSearch) (off : Int) (lim : Nat) :
    (searchTransactions st { f with offset := off, limit := lim }).sum_income =
      (((matchedTxs st f).filter (fun t => 0 < t.amount)).map Tx.amount).sum ∧
    (searchTransactions st { f with offset := off, limit := lim }).sum_expense =
      (((matchedTxs st f).filter (fun t => t.amount < 0)).map Tx.amount).sum :=
  ⟨rfl, rfl⟩

end AssetTracker
